import Mathlib

/-
Shallow embedding of the twixelbox-bot core (src/main.rs, src/lib.rs).

The program ingests chat lines, parses them into cube-placement commands,
applies them to a kiss3d window ("canvas"), persists them to a sqlite
archive, and paces periodic render snapshots.  The embedding below
translates the pure logic of those paths:

* Cube                      — src/lib.rs, struct Cube
* SceneNode / Canvas        — src/main.rs, struct Canvas and the kiss3d
                              window scene it mutates.  kiss3d's
                              window.add_cube appends a fresh node to the
                              scene; the node's float translation and
                              colour are functions of the integer inputs
                              (x, y, z, r, g, b, frame_side_len), so a
                              node is recorded here by those integers.
* ChatCommand.from_str      — src/main.rs lines 115-140, including Rust's
                              str::split(' ') and u32::from_str semantics.
* processMessage            — src/main.rs lines 252-279, the message
                              processing task (parse + bound check).
* loadAll                   — src/main.rs lines 283-296, startup replay of
                              archived cubes into the canvas.
* renderArm                 — src/main.rs lines 303-345, the Command::Render
                              arm of the event loop (frame pacing).
* handleAddCube             — src/main.rs lines 346-359, the Command::AddCube
                              arm of the event loop.

Time is modelled in nanoseconds (the resolution of std::time::Instant /
Duration); Duration::as_millis is division by 10^6.  Machine-integer casts
are explicit (% 2^32 for `as u32`, % 2^8 for `as u8`).
-/

namespace Twixelbox

/-- Cube record persisted in the archive (src/lib.rs). `position` is a
triple of u32 coordinates, `colour` a triple of u8 components. -/
structure Cube where
  position : Nat × Nat × Nat
  colour : Nat × Nat × Nat
deriving DecidableEq

/-- One kiss3d scene node created by a window.add_cube call inside
Canvas::add_cube (src/main.rs lines 79-93).  Its translation and colour
floats are computed from exactly these integers and frame_side_len, so the
integers identify the node.  The kiss3d window scene is the list of nodes
in creation order. -/
structure SceneNode where
  pos : Nat × Nat × Nat
  colour : Nat × Nat × Nat
deriving DecidableEq

/-- Canvas struct (src/main.rs lines 60-62): only stores the side length. -/
structure Canvas where
  frame_side_len : Nat
deriving DecidableEq

/-- Canvas::add_cube (src/main.rs lines 64-94).  It unconditionally calls
window.add_cube, creating a fresh scene node, sets its colour and
translation from (x,y,z,r,g,b) and appends it to the scene.  There is no
lookup of an existing node at the same coordinate and no bound check
(the TODOs at lines 75-77 record both omissions). -/
def Canvas.add_cube (_c : Canvas) (window : List SceneNode)
    (x y z r g b : Nat) : List SceneNode :=
  window ++ [⟨(x, y, z), (r, g, b)⟩]

/-- Parsed chat command (src/main.rs lines 105-113): x,y,z are u32,
r,g,b are u8. -/
structure ChatCommand where
  x : Nat
  y : Nat
  z : Nat
  r : Nat
  g : Nat
  b : Nat
deriving DecidableEq

/-- Rust str::split(' ') on a single-char pattern: splits at every space,
keeping empty substrings (so leading, trailing and doubled spaces produce
empty tokens, and the empty string yields one empty token). -/
def splitOnSpace : List Char → List (List Char)
  | [] => [[]]
  | c :: rest =>
    match splitOnSpace rest with
    | [] => [[]]
    | t :: ts => if c = ' ' then [] :: t :: ts else (c :: t) :: ts

/-- Helper for u32::from_str: an optional leading plus sign is stripped
(unsigned parsing rejects a minus sign as an invalid digit). -/
def stripPlus (cs : List Char) : List Char :=
  match cs with
  | [] => []
  | c :: rest => if c = '+' then rest else c :: rest

/-- Numeric value of a digit string, most significant digit first (the
accumulation performed by u32::from_str_radix with radix 10). -/
def tokenVal (cs : List Char) : Nat :=
  cs.foldl (fun acc c => acc * 10 + (c.toNat - 48)) 0

/-- Rust u32::from_str (`v.parse::<u32>()`, src/main.rs line 119): after an
optional leading plus the token must be one or more ASCII digits, and the
accumulated value must fit in u32 (checked multiply/add overflow = error;
for digit-only accumulation the partial values are monotone, so overflow
at some step is equivalent to the final value being ≥ 2^32). -/
def parseU32 (cs : List Char) : Option Nat :=
  let ds := stripPlus cs
  if ds = [] then none
  else if ds.all Char.isDigit then
    if tokenVal ds < 2 ^ 32 then some (tokenVal ds) else none
  else none

/-- Result collection of `value.split(' ').map(parse).collect::<Result<Vec<_>,_>>()`:
the whole vector parses, or the first failure makes the whole result fail. -/
def parseAll : List (List Char) → Option (List Nat)
  | [] => some []
  | t :: ts =>
    match parseU32 t, parseAll ts with
    | some n, some ns => some (n :: ns)
    | _, _ => none

/-- ChatCommand::from_str (src/main.rs lines 115-140).  All tokens are
parsed as u32 first; only if every token parses is the count checked
(error string "too many args" when ≠ 6), then the colour range (error
string "invalid r g b" when r, g or b > 255); a failed token parse yields
the error string "error parsing".  The u8 casts `as u8` are % 2^8. -/
def ChatCommand.from_str (value : List Char) : Except String ChatCommand :=
  match parseAll (splitOnSpace value) with
  | some v =>
    match v with
    | [x, y, z, r, g, b] =>
      if 255 < r ∨ 255 < g ∨ 255 < b then Except.error "invalid r g b"
      else Except.ok ⟨x, y, z, r % 2 ^ 8, g % 2 ^ 8, b % 2 ^ 8⟩
    | _ => Except.error "too many args"
  | none => Except.error "error parsing"

instance {ε α : Type} [DecidableEq ε] [DecidableEq α] : DecidableEq (Except ε α)
  | Except.error e, Except.error f =>
    if h : e = f then isTrue (by rw [h])
    else isFalse fun he => h (Except.error.inj he)
  | Except.error _, Except.ok _ => isFalse fun he => Except.noConfusion he
  | Except.ok _, Except.error _ => isFalse fun he => Except.noConfusion he
  | Except.ok x, Except.ok y =>
    if h : x = y then isTrue (by rw [h])
    else isFalse fun he => h (Except.ok.inj he)

/-- Message processing task, Privmsg arm (src/main.rs lines 256-275):
parse the message text; on parse error drop it; when any coordinate is
≥ cube_size drop it; otherwise forward an AddCube command carrying the
Cube built from the command's fields. -/
def processMessage (cube_size : Nat) (text : List Char) : Option Cube :=
  match ChatCommand.from_str text with
  | Except.error _ => none
  | Except.ok c =>
    if cube_size ≤ c.x ∨ cube_size ≤ c.y ∨ cube_size ≤ c.z then none
    else some ⟨(c.x, c.y, c.z), (c.r, c.g, c.b)⟩

/-- Command::AddCube arm of the event loop (src/main.rs lines 346-359):
add the cube to the canvas scene and append it to the archive. -/
def handleAddCube (c : Canvas) (window : List SceneNode)
    (archive : List Cube) (cube : Cube) : List SceneNode × List Cube :=
  (c.add_cube window cube.position.1 cube.position.2.1 cube.position.2.2
      cube.colour.1 cube.colour.2.1 cube.colour.2.2,
    archive ++ [cube])

/-- End-to-end handling of one chat line (message task + event loop arm):
a dropped message leaves canvas scene and archive untouched. -/
def handleChatMessage (cube_size : Nat) (c : Canvas) (window : List SceneNode)
    (archive : List Cube) (text : List Char) : List SceneNode × List Cube :=
  match processMessage cube_size text with
  | none => (window, archive)
  | some cube => handleAddCube c window archive cube

/-- Startup replay (src/main.rs lines 286-296): every cube returned by
archive.get_cubes() is fed to Canvas::add_cube, with no bound check. -/
def loadAll (c : Canvas) (window : List SceneNode) (cubes : List Cube) :
    List SceneNode :=
  cubes.foldl
    (fun w cube =>
      c.add_cube w cube.position.1 cube.position.2.1 cube.position.2.2
        cube.colour.1 cube.colour.2.1 cube.colour.2.2)
    window

/-- Outcome of the fallible steps inside the Render arm: RgbImage::from_raw
returning None, img.save failing, fs::rename failing, or full success. -/
inductive RenderOutcome
  | fromRawNone
  | saveErr
  | renameErr
  | ok
deriving DecidableEq

/-- How one Command::Render message was handled. -/
inductive RenderStep
  | earlySkip
  | saveFailSkip
  | panic
  | paced (framesLost : Nat)
deriving DecidableEq

/-- Command::Render arm of the event loop (src/main.rs lines 303-345).
Arguments: next = next_expected_frame, now = current_time at receipt,
d = wall time spent rendering (nanoseconds), fMs = frame_time in whole
milliseconds (frame_time is built with Duration::from_millis).  Returns
the step taken and the new next_expected_frame.

If now < next the tick is skipped with all state unchanged (line 305).
Otherwise the render/snapshot runs; when from_raw yields None the loop
only logs and falls through to the pacing code; when img.save fails the
loop logs and `continue`s, skipping the pacing update; when fs::rename
fails the .unwrap() panics.  On the paths that reach it, the pacing code
computes frames_lost = render_time.as_millis() / frame_time.as_millis()
(u128 division) and next_expected_frame =
current_time + frame_time * (frames_lost as u32 + 1), with the u32 cast
modelled as % 2^32. -/
def renderArm (next now d fMs : Nat) (o : RenderOutcome) : RenderStep × Nat :=
  if now < next then (RenderStep.earlySkip, next)
  else
    match o with
    | RenderOutcome.saveErr => (RenderStep.saveFailSkip, next)
    | RenderOutcome.renameErr => (RenderStep.panic, next)
    | _ =>
      let framesLost := d / 1000000 / fMs
      (RenderStep.paced framesLost,
        now + fMs * 1000000 * (framesLost % 2 ^ 32 + 1))

/-- Single-space join of a token list; used to state properties about
inputs that consist of tokens separated by single spaces. -/
def joinTokens : List (List Char) → List Char
  | [] => []
  | [t] => t
  | t :: ts => t ++ ' ' :: joinTokens ts

/-- A canonical base-10 numeral token: nonempty and all ASCII digits. -/
def digitToken (t : List Char) : Prop :=
  t ≠ [] ∧ ∀ c ∈ t, c.isDigit = true

instance (t : List Char) : Decidable (digitToken t) := by
  unfold digitToken; infer_instance

/- ------------------------------------------------------------------ -/
/- Helper lemmas about the split / parse functions.                   -/
/- ------------------------------------------------------------------ -/

theorem splitOnSpace_shape (s : List Char) :
    ∃ t ts, splitOnSpace s = t :: ts := by
  cases s with
  | nil => exact ⟨[], [], rfl⟩
  | cons c cs =>
    simp only [splitOnSpace]
    cases h : splitOnSpace cs with
    | nil => exact ⟨[], [], rfl⟩
    | cons t ts =>
      by_cases hc : c = ' '
      · exact ⟨[], t :: ts, by simp [hc]⟩
      · exact ⟨c :: t, ts, by simp [hc]⟩

theorem splitOnSpace_of_no_space (t : List Char) (h : ' ' ∉ t) :
    splitOnSpace t = [t] := by
  induction t with
  | nil => rfl
  | cons c cs ih =>
    have hc : ¬c = ' ' := fun he => h (he ▸ List.mem_cons_self c cs)
    have hcs : ' ' ∉ cs := fun hm => h (List.mem_cons_of_mem c hm)
    simp [splitOnSpace, ih hcs, hc]

theorem splitOnSpace_append (t rest : List Char) (h : ' ' ∉ t) :
    splitOnSpace (t ++ ' ' :: rest) = t :: splitOnSpace rest := by
  induction t with
  | nil =>
    obtain ⟨u, us, hu⟩ := splitOnSpace_shape rest
    simp [splitOnSpace, hu]
  | cons c cs ih =>
    have hc : ¬c = ' ' := fun he => h (he ▸ List.mem_cons_self c cs)
    have hcs : ' ' ∉ cs := fun hm => h (List.mem_cons_of_mem c hm)
    have ih2 := ih hcs
    obtain ⟨u, us, hu⟩ := splitOnSpace_shape rest
    rw [hu] at ih2
    simp [splitOnSpace, ih2, hc, hu]

theorem splitOnSpace_joinTokens (ts : List (List Char)) (hne : ts ≠ [])
    (h : ∀ t ∈ ts, ' ' ∉ t) : splitOnSpace (joinTokens ts) = ts := by
  induction ts with
  | nil => exact absurd rfl hne
  | cons t ts ih =>
    cases ts with
    | nil => simpa [joinTokens] using splitOnSpace_of_no_space t (h t (by simp))
    | cons t2 ts2 =>
      have hj : joinTokens (t :: t2 :: ts2) = t ++ ' ' :: joinTokens (t2 :: ts2) :=
        rfl
      rw [hj, splitOnSpace_append t _ (h t (by simp)),
        ih (by simp) fun u hu => h u (List.mem_cons_of_mem t hu)]

theorem parseU32_digits (t : List Char) (hne : t ≠ [])
    (hd : ∀ c ∈ t, c.isDigit = true) (hlt : tokenVal t < 2 ^ 32) :
    parseU32 t = some (tokenVal t) := by
  have hsp : stripPlus t = t := by
    cases t with
    | nil => rfl
    | cons c cs =>
      have hc : ¬c = '+' := by
        intro he
        have hdc := hd c (by simp)
        rw [he] at hdc
        exact absurd hdc (by decide)
      simp [stripPlus, hc]
  have hall : t.all Char.isDigit = true := List.all_eq_true.mpr hd
  simp [parseU32, hsp, hne, hall]
  omega

theorem parseAll_nil : parseAll [] = some [] := rfl

theorem parseAll_cons_some {t : List Char} {n : Nat} {ts : List (List Char)}
    {ns : List Nat} (h1 : parseU32 t = some n) (h2 : parseAll ts = some ns) :
    parseAll (t :: ts) = some (n :: ns) := by
  simp [parseAll, h1, h2]

theorem parseAll_none_of_mem {ts : List (List Char)} (t : List Char)
    (hmem : t ∈ ts) (hnone : parseU32 t = none) : parseAll ts = none := by
  induction ts with
  | nil => exact absurd hmem (List.not_mem_nil t)
  | cons a as ih =>
    rcases List.mem_cons.mp hmem with he | hm
    · subst he
      simp [parseAll, hnone]
    · have h2 := ih hm
      cases h1 : parseU32 a <;> simp [parseAll, h1, h2]

theorem parseAll_some_forall {ts : List (List Char)} {v : List Nat}
    (h : parseAll ts = some v) : ∀ t ∈ ts, parseU32 t ≠ none := by
  induction ts generalizing v with
  | nil => intro t hmem; exact absurd hmem (List.not_mem_nil t)
  | cons a as ih =>
    intro t hmem
    cases h1 : parseU32 a with
    | none => simp [parseAll, h1] at h
    | some n =>
      cases h2 : parseAll as with
      | none => simp [parseAll, h1, h2] at h
      | some ns =>
        rcases List.mem_cons.mp hmem with he | hm
        · subst he; simp [h1]
        · exact ih h2 t hm

theorem digitToken_no_space {t : List Char} (h : digitToken t) : ' ' ∉ t :=
  fun hm => absurd (h.2 ' ' hm) (by decide)

theorem splitOnSpace_six_digit (t1 t2 t3 t4 t5 t6 : List Char)
    (hd1 : digitToken t1) (hd2 : digitToken t2) (hd3 : digitToken t3)
    (hd4 : digitToken t4) (hd5 : digitToken t5) (hd6 : digitToken t6) :
    splitOnSpace (joinTokens [t1, t2, t3, t4, t5, t6]) =
      [t1, t2, t3, t4, t5, t6] := by
  apply splitOnSpace_joinTokens _ (by simp)
  intro t ht
  rcases (show t = t1 ∨ t = t2 ∨ t = t3 ∨ t = t4 ∨ t = t5 ∨ t = t6 by
    simpa using ht) with rfl | rfl | rfl | rfl | rfl | rfl
  · exact digitToken_no_space hd1
  · exact digitToken_no_space hd2
  · exact digitToken_no_space hd3
  · exact digitToken_no_space hd4
  · exact digitToken_no_space hd5
  · exact digitToken_no_space hd6

theorem parseAll_six_digit (t1 t2 t3 t4 t5 t6 : List Char)
    (hd1 : digitToken t1) (hd2 : digitToken t2) (hd3 : digitToken t3)
    (hd4 : digitToken t4) (hd5 : digitToken t5) (hd6 : digitToken t6)
    (hv1 : tokenVal t1 < 2 ^ 32) (hv2 : tokenVal t2 < 2 ^ 32)
    (hv3 : tokenVal t3 < 2 ^ 32) (hv4 : tokenVal t4 < 2 ^ 32)
    (hv5 : tokenVal t5 < 2 ^ 32) (hv6 : tokenVal t6 < 2 ^ 32) :
    parseAll [t1, t2, t3, t4, t5, t6] =
      some [tokenVal t1, tokenVal t2, tokenVal t3,
        tokenVal t4, tokenVal t5, tokenVal t6] :=
  parseAll_cons_some (parseU32_digits t1 hd1.1 hd1.2 hv1)
    (parseAll_cons_some (parseU32_digits t2 hd2.1 hd2.2 hv2)
      (parseAll_cons_some (parseU32_digits t3 hd3.1 hd3.2 hv3)
        (parseAll_cons_some (parseU32_digits t4 hd4.1 hd4.2 hv4)
          (parseAll_cons_some (parseU32_digits t5 hd5.1 hd5.2 hv5)
            (parseAll_cons_some (parseU32_digits t6 hd6.1 hd6.2 hv6)
              parseAll_nil)))))

/- ------------------------------------------------------------------ -/
/- Claim theorems.                                                    -/
/- ------------------------------------------------------------------ -/

/-- C1: the claim says two placements at the same coordinate leave the
canvas with only the second colour (last-writer-wins, no duplicate entry).
The code violates this: Canvas::add_cube unconditionally creates a new
scene node, so after placing (0,0,0) red and then (0,0,0) green the
window scene holds two nodes at (0,0,0), the red one still present, and
the scene is not the single-entry state the claim requires. -/
theorem c1_add_cube_appends_duplicate :
    Canvas.add_cube ⟨500⟩ (Canvas.add_cube ⟨500⟩ [] 0 0 0 255 0 0)
        0 0 0 0 255 0 =
      [⟨(0, 0, 0), (255, 0, 0)⟩, ⟨(0, 0, 0), (0, 255, 0)⟩] ∧
    Canvas.add_cube ⟨500⟩ (Canvas.add_cube ⟨500⟩ [] 0 0 0 255 0 0)
        0 0 0 0 255 0 ≠
      [⟨(0, 0, 0), (0, 255, 0)⟩] := by
  decide

/-- C2: on a non-early render tick the event loop computes
frames_lost = floor(render_duration / frame_interval) — an exact floor:
frames_lost * f ≤ d < (frames_lost + 1) * f, with d < f giving 0 and
d = f giving 1 — and re-arms next_expected_frame =
attempt_time + f * (frames_lost + 1).  Durations are in nanoseconds and
the frame interval is fMs whole milliseconds (frame_time is built with
Duration::from_millis), so frame_interval = fMs * 10^6 ns and the code's
millisecond division as_millis(d) / as_millis(f) equals the exact floor
d / (fMs * 10^6). -/
theorem c2_frame_pacing (next now d fMs : Nat) (hf : 0 < fMs)
    (hn : next ≤ now) (hcast : d / 1000000 / fMs < 2 ^ 32) :
    renderArm next now d fMs RenderOutcome.ok =
      (RenderStep.paced (d / 1000000 / fMs),
        now + fMs * 1000000 * (d / 1000000 / fMs + 1)) ∧
    d / 1000000 / fMs = d / (fMs * 1000000) ∧
    d / (fMs * 1000000) * (fMs * 1000000) ≤ d ∧
    d < (d / (fMs * 1000000) + 1) * (fMs * 1000000) ∧
    (d < fMs * 1000000 → d / 1000000 / fMs = 0) ∧
    (d = fMs * 1000000 → d / 1000000 / fMs = 1) := by
  have hF : 0 < fMs * 1000000 := Nat.mul_pos hf (by norm_num)
  have hdd : d / 1000000 / fMs = d / (fMs * 1000000) := by
    rw [Nat.div_div_eq_div_mul, Nat.mul_comm]
  refine ⟨?_, hdd, Nat.div_mul_le_self d _, ?_, ?_, ?_⟩
  · have h1 : renderArm next now d fMs RenderOutcome.ok =
        (RenderStep.paced (d / 1000000 / fMs),
          now + fMs * 1000000 * (d / 1000000 / fMs % 2 ^ 32 + 1)) := by
      unfold renderArm
      rw [if_neg (Nat.not_lt.mpr hn)]
    rw [h1, Nat.mod_eq_of_lt hcast]
  · have h1 := Nat.div_add_mod d (fMs * 1000000)
    have h2 := Nat.mod_lt d hF
    calc d = fMs * 1000000 * (d / (fMs * 1000000)) + d % (fMs * 1000000) :=
        h1.symm
      _ < fMs * 1000000 * (d / (fMs * 1000000)) + fMs * 1000000 := by omega
      _ = (d / (fMs * 1000000) + 1) * (fMs * 1000000) := by ring
  · intro hlt
    rw [hdd]
    exact Nat.div_eq_of_lt hlt
  · intro he
    rw [hdd, he]
    exact Nat.div_self hF

/-- Witness for C2 at attempt time 10ns, render duration 3.7s and frame
interval 1000ms (so d = 3.7 × f and frames_lost = 3). -/
theorem c2_frame_pacing_witness :
    renderArm 0 10 3700000000 1000 RenderOutcome.ok =
      (RenderStep.paced (3700000000 / 1000000 / 1000),
        10 + 1000 * 1000000 * (3700000000 / 1000000 / 1000 + 1)) ∧
    3700000000 / 1000000 / 1000 = 3700000000 / (1000 * 1000000) ∧
    3700000000 / (1000 * 1000000) * (1000 * 1000000) ≤ 3700000000 ∧
    3700000000 < (3700000000 / (1000 * 1000000) + 1) * (1000 * 1000000) ∧
    (3700000000 < 1000 * 1000000 → 3700000000 / 1000000 / 1000 = 0) ∧
    (3700000000 = 1000 * 1000000 → 3700000000 / 1000000 / 1000 = 1) :=
  c2_frame_pacing 0 10 3700000000 1000 (by decide) (by decide) (by decide)

/-- C3 counterexample: the claim says every failing render tick still
advances the pacing state exactly as §4.4 step 6 computes.  But when
img.save fails the loop hits a `continue` before the pacing code: at
next_expected_frame = 0, tick at 5s, render duration 3s, frame interval
1000ms, the new deadline stays 0, while step 6 would give
5e9 + 1e9 * (3 + 1) = 9e9 ≠ 0. -/
theorem c3_render_failure_cex :
    renderArm 0 5000000000 3000000000 1000 RenderOutcome.saveErr =
      (RenderStep.saveFailSkip, 0) ∧
    (0 : Nat) ≠
      5000000000 +
        1000 * 1000000 * (3000000000 / 1000000 / 1000 % 2 ^ 32 + 1) := by
  decide

/-- C3 amended: on a non-early render tick, a failed RgbImage::from_raw
conversion is logged and pacing still advances per §4.4 step 6; a failed
img.save is logged and the frame skipped but the pacing state is left
unchanged; a failed fs::rename panics (terminates the process). -/
theorem c3_render_failure_paths (next now d fMs : Nat) (hn : next ≤ now) :
    renderArm next now d fMs RenderOutcome.fromRawNone =
      (RenderStep.paced (d / 1000000 / fMs),
        now + fMs * 1000000 * (d / 1000000 / fMs % 2 ^ 32 + 1)) ∧
    renderArm next now d fMs RenderOutcome.saveErr =
      (RenderStep.saveFailSkip, next) ∧
    renderArm next now d fMs RenderOutcome.renameErr =
      (RenderStep.panic, next) := by
  refine ⟨?_, ?_, ?_⟩ <;>
    · unfold renderArm
      rw [if_neg (Nat.not_lt.mpr hn)]

/-- Witness for C3 amended, at deadline 0, tick time 5s, duration 3s,
frame interval 1000ms. -/
theorem c3_render_failure_paths_witness :
    renderArm 0 5000000000 3000000000 1000 RenderOutcome.fromRawNone =
      (RenderStep.paced (3000000000 / 1000000 / 1000),
        5000000000 +
          1000 * 1000000 * (3000000000 / 1000000 / 1000 % 2 ^ 32 + 1)) ∧
    renderArm 0 5000000000 3000000000 1000 RenderOutcome.saveErr =
      (RenderStep.saveFailSkip, 0) ∧
    renderArm 0 5000000000 3000000000 1000 RenderOutcome.renameErr =
      (RenderStep.panic, 0) :=
  c3_render_failure_paths 0 5000000000 3000000000 1000 (by decide)

/-- C4: the claim says replaying the archived event set twice yields a
canvas state identical to replaying it once.  The code violates this:
the startup replay feeds every archived cube to Canvas::add_cube, which
always appends a fresh scene node, so replaying the one-event set
[{(1,2,3),(4,5,6)}] twice leaves two nodes where one replay leaves one. -/
theorem c4_replay_not_idempotent :
    loadAll ⟨500⟩ (loadAll ⟨500⟩ [] [⟨(1, 2, 3), (4, 5, 6)⟩])
        [⟨(1, 2, 3), (4, 5, 6)⟩] ≠
      loadAll ⟨500⟩ [] [⟨(1, 2, 3), (4, 5, 6)⟩] := by
  decide

/-- C5: the claim says every coordinate ever stored in the canvas is
below the configured bound, with out-of-bound commands dropped before
reaching the canvas — for replayed events too.  The code violates this
for the replay path: startup replay applies archived cubes with no bound
check (Canvas::add_cube's TODO records the missing check), so an archived
cube at (1000,0,0) lands in the canvas under bound 500; by contrast the
chat path does drop the same out-of-bound command. -/
theorem c5_replay_skips_bound_check :
    loadAll ⟨500⟩ [] [⟨(1000, 0, 0), (10, 10, 10)⟩] =
      [⟨(1000, 0, 0), (10, 10, 10)⟩] ∧
    ¬(1000 < 500) ∧
    processMessage 500
      (joinTokens [['1', '0', '0', '0'], ['0'], ['0'],
        ['1', '0'], ['1', '0'], ['1', '0']]) = none := by
  decide

/-- C6: a render tick arriving before next_expected_frame is skipped
entirely, whatever the render outcome would have been: no render occurs
(earlySkip) and the deadline keeps its previous value. -/
theorem c6_early_tick (next now d fMs : Nat) (o : RenderOutcome)
    (h : now < next) :
    renderArm next now d fMs o = (RenderStep.earlySkip, next) := by
  unfold renderArm
  rw [if_pos h]

/-- Witness for C6: tick at 50ns with deadline 100ns is skipped and the
deadline stays 100. -/
theorem c6_early_tick_witness :
    renderArm 100 50 77 10 RenderOutcome.ok = (RenderStep.earlySkip, 100) :=
  c6_early_tick 100 50 77 10 RenderOutcome.ok (by decide)

/-- C7: for an input of exactly six base-10 numeral tokens separated by
single spaces, with the colour values at most 255 and the coordinate
values below the configured bound (cube_size is a u32, so the bound is
below 2^32), parsing succeeds with the six parsed integers as fields and
the caller's bound check accepts the command. -/
theorem c7_valid_command_accepted (t1 t2 t3 t4 t5 t6 : List Char)
    (bound : Nat)
    (hd1 : digitToken t1) (hd2 : digitToken t2) (hd3 : digitToken t3)
    (hd4 : digitToken t4) (hd5 : digitToken t5) (hd6 : digitToken t6)
    (hx : tokenVal t1 < bound) (hy : tokenVal t2 < bound)
    (hz : tokenVal t3 < bound)
    (hr : tokenVal t4 ≤ 255) (hg : tokenVal t5 ≤ 255)
    (hb : tokenVal t6 ≤ 255)
    (hbound : bound < 2 ^ 32) :
    ChatCommand.from_str (joinTokens [t1, t2, t3, t4, t5, t6]) =
      Except.ok ⟨tokenVal t1, tokenVal t2, tokenVal t3,
        tokenVal t4, tokenVal t5, tokenVal t6⟩ ∧
    processMessage bound (joinTokens [t1, t2, t3, t4, t5, t6]) =
      some ⟨(tokenVal t1, tokenVal t2, tokenVal t3),
        (tokenVal t4, tokenVal t5, tokenVal t6)⟩ := by
  have hsplit := splitOnSpace_six_digit t1 t2 t3 t4 t5 t6 hd1 hd2 hd3 hd4 hd5 hd6
  have hall := parseAll_six_digit t1 t2 t3 t4 t5 t6 hd1 hd2 hd3 hd4 hd5 hd6
    (by omega) (by omega) (by omega) (by omega) (by omega) (by omega)
  have hcond : ¬(255 < tokenVal t4 ∨ 255 < tokenVal t5 ∨ 255 < tokenVal t6) := by
    omega
  have e4 : tokenVal t4 % 2 ^ 8 = tokenVal t4 := Nat.mod_eq_of_lt (by omega)
  have e5 : tokenVal t5 % 2 ^ 8 = tokenVal t5 := Nat.mod_eq_of_lt (by omega)
  have e6 : tokenVal t6 % 2 ^ 8 = tokenVal t6 := Nat.mod_eq_of_lt (by omega)
  have hfs : ChatCommand.from_str (joinTokens [t1, t2, t3, t4, t5, t6]) =
      Except.ok ⟨tokenVal t1, tokenVal t2, tokenVal t3,
        tokenVal t4, tokenVal t5, tokenVal t6⟩ := by
    unfold ChatCommand.from_str
    rw [hsplit, hall]
    show (if 255 < tokenVal t4 ∨ 255 < tokenVal t5 ∨ 255 < tokenVal t6 then
        (Except.error "invalid r g b" : Except String ChatCommand)
      else Except.ok ⟨tokenVal t1, tokenVal t2, tokenVal t3,
        tokenVal t4 % 2 ^ 8, tokenVal t5 % 2 ^ 8, tokenVal t6 % 2 ^ 8⟩) = _
    rw [if_neg hcond, e4, e5, e6]
  refine ⟨hfs, ?_⟩
  have hcond2 : ¬(bound ≤ tokenVal t1 ∨ bound ≤ tokenVal t2 ∨
      bound ≤ tokenVal t3) := by omega
  unfold processMessage
  rw [hfs]
  show (if bound ≤ tokenVal t1 ∨ bound ≤ tokenVal t2 ∨ bound ≤ tokenVal t3
      then none
    else some (⟨(tokenVal t1, tokenVal t2, tokenVal t3),
        (tokenVal t4, tokenVal t5, tokenVal t6)⟩ : Cube)) = _
  rw [if_neg hcond2]

/-- Witness for C7: the spec scenario, input "10 10 10 255 0 0" with
bound 500, is accepted as the command {10,10,10,255,0,0}. -/
theorem c7_valid_command_accepted_witness :
    ChatCommand.from_str
        ['1', '0', ' ', '1', '0', ' ', '1', '0', ' ',
          '2', '5', '5', ' ', '0', ' ', '0'] =
      Except.ok ⟨10, 10, 10, 255, 0, 0⟩ ∧
    processMessage 500
        ['1', '0', ' ', '1', '0', ' ', '1', '0', ' ',
          '2', '5', '5', ' ', '0', ' ', '0'] =
      some ⟨(10, 10, 10), (255, 0, 0)⟩ :=
  c7_valid_command_accepted ['1', '0'] ['1', '0'] ['1', '0']
    ['2', '5', '5'] ['0'] ['0'] 500
    (by decide) (by decide) (by decide) (by decide) (by decide) (by decide)
    (by decide) (by decide) (by decide) (by decide) (by decide) (by decide)
    (by decide)

/-- C8 counterexample: the claim says any input with token count ≠ 6
fails with the field-count error regardless of token content, but the
code parses every token before counting: the 2-token input "1 x" fails
with the numeric-format error "error parsing", not "too many args". -/
theorem c8_field_count_cex :
    ChatCommand.from_str ['1', ' ', 'x'] = Except.error "error parsing" ∧
    ChatCommand.from_str ['1', ' ', 'x'] ≠ Except.error "too many args" := by
  decide

/-- C8 amended: for every input whose tokens all parse as u32, a token
count ≠ 6 fails with the field-count error "too many args". -/
theorem c8_field_count_amended (s : List Char) (v : List Nat)
    (hp : parseAll (splitOnSpace s) = some v) (hlen : v.length ≠ 6) :
    ChatCommand.from_str s = Except.error "too many args" := by
  unfold ChatCommand.from_str
  rw [hp]
  rcases v with _ | ⟨a, _ | ⟨b, _ | ⟨c, _ | ⟨d, _ | ⟨e, _ | ⟨f, _ | ⟨g, rest⟩⟩⟩⟩⟩⟩⟩
  · rfl
  · rfl
  · rfl
  · rfl
  · rfl
  · rfl
  · exact absurd rfl hlen
  · rfl

/-- Witness for C8 amended: the spec scenario "1 2 3" (three numeric
tokens) is rejected with the field-count error. -/
theorem c8_field_count_amended_witness :
    ChatCommand.from_str ['1', ' ', '2', ' ', '3'] =
      Except.error "too many args" :=
  c8_field_count_amended ['1', ' ', '2', ' ', '3'] [1, 2, 3]
    (by decide) (by decide)

/-- C9 counterexample: the claim covers every six-token input whose r, g
or b token exceeds 255, but a colour token whose value does not fit in
u32, such as 4294967296 in "10 10 10 4294967296 0 0", fails token
parsing first and is rejected with "error parsing", not the colour-range
error. -/
theorem c9_color_range_cex :
    ChatCommand.from_str
        ['1', '0', ' ', '1', '0', ' ', '1', '0', ' ',
          '4', '2', '9', '4', '9', '6', '7', '2', '9', '6', ' ',
          '0', ' ', '0'] =
      Except.error "error parsing" ∧
    ChatCommand.from_str
        ['1', '0', ' ', '1', '0', ' ', '1', '0', ' ',
          '4', '2', '9', '4', '9', '6', '7', '2', '9', '6', ' ',
          '0', ' ', '0'] ≠
      Except.error "invalid r g b" := by
  decide

/-- C9 amended: for every input of six base-10 numeral tokens whose
values all fit in u32, if r, g or b exceeds 255 then parsing fails with
the colour-range error "invalid r g b", the command is dropped, and one
full pass of the message task plus event loop leaves the canvas scene
and the archive unchanged. -/
theorem c9_color_range_amended (t1 t2 t3 t4 t5 t6 : List Char)
    (bound : Nat)
    (hd1 : digitToken t1) (hd2 : digitToken t2) (hd3 : digitToken t3)
    (hd4 : digitToken t4) (hd5 : digitToken t5) (hd6 : digitToken t6)
    (hv1 : tokenVal t1 < 2 ^ 32) (hv2 : tokenVal t2 < 2 ^ 32)
    (hv3 : tokenVal t3 < 2 ^ 32) (hv4 : tokenVal t4 < 2 ^ 32)
    (hv5 : tokenVal t5 < 2 ^ 32) (hv6 : tokenVal t6 < 2 ^ 32)
    (hcol : 255 < tokenVal t4 ∨ 255 < tokenVal t5 ∨ 255 < tokenVal t6) :
    ChatCommand.from_str (joinTokens [t1, t2, t3, t4, t5, t6]) =
      Except.error "invalid r g b" ∧
    ∀ (c : Canvas) (window : List SceneNode) (archive : List Cube),
      handleChatMessage bound c window archive
          (joinTokens [t1, t2, t3, t4, t5, t6]) =
        (window, archive) := by
  have hsplit := splitOnSpace_six_digit t1 t2 t3 t4 t5 t6 hd1 hd2 hd3 hd4 hd5 hd6
  have hall := parseAll_six_digit t1 t2 t3 t4 t5 t6 hd1 hd2 hd3 hd4 hd5 hd6
    hv1 hv2 hv3 hv4 hv5 hv6
  have hfs : ChatCommand.from_str (joinTokens [t1, t2, t3, t4, t5, t6]) =
      Except.error "invalid r g b" := by
    unfold ChatCommand.from_str
    rw [hsplit, hall]
    show (if 255 < tokenVal t4 ∨ 255 < tokenVal t5 ∨ 255 < tokenVal t6 then
        (Except.error "invalid r g b" : Except String ChatCommand)
      else Except.ok ⟨tokenVal t1, tokenVal t2, tokenVal t3,
        tokenVal t4 % 2 ^ 8, tokenVal t5 % 2 ^ 8, tokenVal t6 % 2 ^ 8⟩) = _
    rw [if_pos hcol]
  have hpm : processMessage bound (joinTokens [t1, t2, t3, t4, t5, t6]) =
      none := by
    unfold processMessage
    rw [hfs]
  refine ⟨hfs, ?_⟩
  intro c window archive
  unfold handleChatMessage
  rw [hpm]

/-- Witness for C9 amended: the spec scenario "10 10 10 256 0 0" is
rejected with the colour-range error and leaves a nonempty canvas scene
and the archive untouched. -/
theorem c9_color_range_amended_witness :
    ChatCommand.from_str
        ['1', '0', ' ', '1', '0', ' ', '1', '0', ' ',
          '2', '5', '6', ' ', '0', ' ', '0'] =
      Except.error "invalid r g b" ∧
    handleChatMessage 500 ⟨500⟩ [⟨(1, 1, 1), (2, 2, 2)⟩] []
        ['1', '0', ' ', '1', '0', ' ', '1', '0', ' ',
          '2', '5', '6', ' ', '0', ' ', '0'] =
      ([⟨(1, 1, 1), (2, 2, 2)⟩], []) :=
  ⟨(c9_color_range_amended ['1', '0'] ['1', '0'] ['1', '0']
      ['2', '5', '6'] ['0'] ['0'] 500
      (by decide) (by decide) (by decide) (by decide) (by decide) (by decide)
      (by decide) (by decide) (by decide) (by decide) (by decide) (by decide)
      (by decide)).1,
    (c9_color_range_amended ['1', '0'] ['1', '0'] ['1', '0']
      ['2', '5', '6'] ['0'] ['0'] 500
      (by decide) (by decide) (by decide) (by decide) (by decide) (by decide)
      (by decide) (by decide) (by decide) (by decide) (by decide) (by decide)
      (by decide)).2 ⟨500⟩ [⟨(1, 1, 1), (2, 2, 2)⟩] []⟩

/-- C10: ChatCommand::from_str parses every token as u32 before checking
the token count, so any input containing a token that fails u32 parsing
(including the empty tokens produced by leading, trailing or doubled
spaces — the empty string fails — and any negative number) is rejected
with the numeric-format error "error parsing" regardless of token count,
and the field-count error "too many args" can only be returned when every
token parses. -/
theorem c10_numeric_before_count (s : List Char) :
    ((∃ t ∈ splitOnSpace s, parseU32 t = none) →
      ChatCommand.from_str s = Except.error "error parsing") ∧
    (ChatCommand.from_str s = Except.error "too many args" →
      ∀ t ∈ splitOnSpace s, parseU32 t ≠ none) ∧
    parseU32 [] = none ∧
    (∀ t, parseU32 ('-' :: t) = none) := by
  refine ⟨?_, ?_, rfl, ?_⟩
  · rintro ⟨t, hmem, hnone⟩
    have hp := parseAll_none_of_mem t hmem hnone
    unfold ChatCommand.from_str
    rw [hp]
  · intro h t hmem hnone
    have hp := parseAll_none_of_mem t hmem hnone
    have h2 : (Except.error "error parsing" : Except String ChatCommand) =
        Except.error "too many args" := by
      rw [← h]
      unfold ChatCommand.from_str
      rw [hp]
    exact absurd h2 (by decide)
  · intro t
    have hsp : stripPlus ('-' :: t) = '-' :: t := by simp [stripPlus]
    have hnd : ('-').isDigit = false := by decide
    simp [parseU32, hsp, hnd]

/-- Witness for C10: a trailing space gives the two tokens "10" and ""
(count 2 ≠ 6), yet the empty token makes parsing fail with the
numeric-format error rather than the field-count error. -/
theorem c10_numeric_before_count_witness :
    ChatCommand.from_str ['1', '0', ' '] = Except.error "error parsing" :=
  (c10_numeric_before_count ['1', '0', ' ']).1 ⟨[], by decide, rfl⟩

end Twixelbox
